import Mathlib

/-!
Verification development for the code-processor-service repository.

The definitions below are shallow embeddings of the Python sources under
`src/code-processor-service/src/`: the LangGraph pipeline (`graph/state.py`,
`graph/nodes.py`, `graph/workflow.py`), the GitHub content client
(`mcp/client.py`), and the processors (`processors/metadata_extractor.py`,
`processors/json_formatter.py`, `processors/code_analyzer.py`).
Network calls are modelled as explicit parameters (a stage body outcome is an
`Except String` value: `.error e` models an exception with message `e`; a
directory listing is a function `String → Option (List RawEntry)` where `none`
models a non-success HTTP status).
-/

/-- A JSON-like value, used to model Python dict/list payloads that the
pipeline threads through its state. -/
inductive Json where
  | null : Json
  | bool : Bool → Json
  | num : Int → Json
  | str : String → Json
  | arr : List Json → Json
  | obj : List (String × Json) → Json
deriving Repr

namespace Graph

/-- Shallow embedding of `ProcessorState` (graph/state.py).  The TypedDict
fields that the four nodes read and write; payload fields whose internal
structure the claims do not inspect are kept as `Json`. -/
structure PState where
  repo_owner : String
  repo_name : String
  current_stage : String
  raw_files : Json
  repository : Json
  metadata : Json
  analysis : Json
  json_output : String
  errors : List String
  is_complete : Bool
  should_continue : Bool
deriving Repr

/-- Embedding of `create_initial_state` (graph/state.py): initial state for a run. -/
def create_initial_state (repo_owner repo_name : String) : PState :=
  { repo_owner := repo_owner
    repo_name := repo_name
    current_stage := "init"
    raw_files := Json.arr []
    repository := Json.obj
      [("name", Json.str repo_name), ("owner", Json.str repo_owner),
       ("languages", Json.arr []), ("structure", Json.obj [])]
    metadata := Json.obj
      [("files", Json.arr []), ("dependencies", Json.arr []),
       ("code_metrics", Json.obj
         [("total_files", Json.num 0), ("total_lines", Json.num 0),
          ("languages_breakdown", Json.obj []), ("file_types", Json.obj [])]),
       ("tech_stack", Json.arr [])]
    analysis := Json.obj
      [("summary", Json.str ""), ("insights", Json.arr []),
       ("recommendations", Json.arr [])]
    json_output := ""
    errors := []
    is_complete := false
    should_continue := true }

/-- Embedding of `ProcessingNodes.analyze_repository` (graph/nodes.py).  The body's network
work (repository info and file structure fetch) is modelled by `body`:
`.ok (repo, files)` is a normal return, `.error e` an exception raised inside
the `try` block with message `e`; the `except` branch appends the
human-readable message and clears `should_continue`. -/
def analyze_repository (body : Except String (Json × Json)) (state : PState) :
    PState :=
  let state := { state with current_stage := "repository_analysis" }
  match body with
  | .ok (repository, file_structure) =>
      { state with repository := repository, raw_files := file_structure }
  | .error e =>
      { state with
        errors := state.errors ++ ["Repository analysis failed: " ++ e]
        should_continue := false }

/-- Embedding of `ProcessingNodes.extract_metadata` (graph/nodes.py), same convention. -/
def extract_metadata (body : Except String Json) (state : PState) : PState :=
  let state := { state with current_stage := "metadata_extraction" }
  match body with
  | .ok metadata => { state with metadata := metadata }
  | .error e =>
      { state with
        errors := state.errors ++ ["Metadata extraction failed: " ++ e]
        should_continue := false }

/-- Embedding of `ProcessingNodes.format_data` (graph/nodes.py), same convention: `body`
is the outcome of `self.code_analyzer.analyze(...)`. -/
def format_data (body : Except String Json) (state : PState) : PState :=
  let state := { state with current_stage := "data_formatting" }
  match body with
  | .ok analysis => { state with analysis := analysis }
  | .error e =>
      { state with
        errors := state.errors ++ ["Data formatting failed: " ++ e]
        should_continue := false }

/-- Embedding of `ProcessingNodes.generate_json` (graph/nodes.py): on success sets
`json_output` and `is_complete := true`; on exception appends and stops. -/
def generate_json (body : Except String String) (state : PState) : PState :=
  let state := { state with current_stage := "json_generation" }
  match body with
  | .ok json_output =>
      { state with json_output := json_output, is_complete := true }
  | .error e =>
      { state with
        errors := state.errors ++ ["JSON generation failed: " ++ e]
        should_continue := false }

/-- Embedding of `should_continue` (graph/nodes.py): the conditional-edge router. -/
def should_continue_route (state : PState) : String :=
  if state.should_continue = false then "end"
  else if state.is_complete = true then "end"
  else "continue"

/-- The body outcomes of the four stages for one run: each field models
whether the stage's wrapped work returns normally or raises. -/
structure StageOutcomes where
  repo : Except String (Json × Json)
  meta : Except String Json
  fmt : Except String Json
  gen : Except String String

/-- The compiled workflow of `CodeProcessorWorkflow._build_graph`
(graph/workflow.py): entry point `analyze_repository`; after each of the
first three nodes the conditional edge `should_continue` routes either to the
next node or to END; `generate_json` has an unconditional edge to END. -/
def run_workflow (o : StageOutcomes) (init : PState) : PState :=
  let s1 := analyze_repository o.repo init
  if should_continue_route s1 = "end" then s1 else
  let s2 := extract_metadata o.meta s1
  if should_continue_route s2 = "end" then s2 else
  let s3 := format_data o.fmt s2
  if should_continue_route s3 = "end" then s3 else
  generate_json o.gen s3

/-- Embedding of `CodeProcessorWorkflow.process` (graph/workflow.py): run from the
initial state. -/
def process (o : StageOutcomes) (repo_owner repo_name : String) : PState :=
  run_workflow o (create_initial_state repo_owner repo_name)

end Graph

namespace Mcp

/-- One item of a GitHub contents listing as consumed by
`GitHubMCPClient._fetch_contents` (mcp/client.py): `item["type"]` is kept as a
string (the code compares it against `"file"` and `"dir"` and ignores other
kinds such as symlinks). -/
structure RawEntry where
  kind : String
  path : String
  name : String
  size : Nat
  sha : Option String
  download_url : Option String
deriving Repr, DecidableEq

/-- The record appended to the `files` list by `_fetch_contents`. -/
structure FileRec where
  path : String
  name : String
  size : Nat
  sha : Option String
  download_url : Option String
deriving Repr, DecidableEq

/-- The record appended to the `directories` list by `_fetch_contents`. -/
structure DirRec where
  path : String
  name : String
deriving Repr, DecidableEq

/-- The result of `get_file_structure` (mcp/client.py). -/
structure FileStructure where
  files : List FileRec
  directories : List DirRec
  total_files : Nat
  total_directories : Nat
deriving Repr, DecidableEq

/-- The per-item loop of `GitHubMCPClient._fetch_contents` (mcp/client.py).
`listDir p` models the GET on `/contents/p`: `none` is a non-success status
(the code then just returns, contributing nothing), `some items` the parsed
listing.  Files are appended to the first component, directories to the
second; a directory is recorded first and then, if `recursive` and
`current_depth < max_depth`, its own listing is expanded at depth + 1. -/
def fetch_items (listDir : String → Option (List RawEntry)) (recursive : Bool)
    (max_depth : Nat) (current_depth : Nat) (items : List RawEntry) :
    List FileRec × List DirRec :=
  match items with
  | [] => ([], [])
  | item :: rest =>
    if item.kind = "file" then
      let tail := fetch_items listDir recursive max_depth current_depth rest
      (⟨item.path, item.name, item.size, item.sha, item.download_url⟩ :: tail.1,
       tail.2)
    else if item.kind = "dir" then
      let sub :=
        if _h : recursive = true ∧ current_depth < max_depth then
          match listDir item.path with
          | none => ([], [])
          | some contents =>
              fetch_items listDir recursive max_depth (current_depth + 1)
                contents
        else ([], [])
      let tail := fetch_items listDir recursive max_depth current_depth rest
      (sub.1 ++ tail.1, ⟨item.path, item.name⟩ :: (sub.2 ++ tail.2))
    else
      fetch_items listDir recursive max_depth current_depth rest
termination_by (max_depth - current_depth, items.length)
decreasing_by
  · apply Prod.Lex.right; simp
  · apply Prod.Lex.left; omega
  · apply Prod.Lex.right; simp
  · apply Prod.Lex.right; simp

/-- Embedding of `GitHubMCPClient._fetch_contents` (mcp/client.py) for one path: on a
non-success status it returns without touching the lists; otherwise it
processes the listed items. -/
def fetch_contents (listDir : String → Option (List RawEntry))
    (recursive : Bool) (max_depth current_depth : Nat) (path : String) :
    List FileRec × List DirRec :=
  match listDir path with
  | none => ([], [])
  | some contents =>
      fetch_items listDir recursive max_depth current_depth contents

/-- Embedding of `GitHubMCPClient.get_file_structure` (mcp/client.py): traverses from the
root path `""` at depth 0 (the Python defaults are `recursive=True`,
`max_depth=3`) and wraps the lists with their counts. -/
def get_file_structure (listDir : String → Option (List RawEntry))
    (recursive : Bool) (max_depth : Nat) : FileStructure :=
  let p := fetch_contents listDir recursive max_depth 0 ""
  { files := p.1
    directories := p.2
    total_files := p.1.length
    total_directories := p.2.length }

/-- The non-recursive listing of a set of items: every file and directory is
recorded, no directory is expanded.  Used to state the depth bound. -/
def shallow_items : List RawEntry → List FileRec × List DirRec
  | [] => ([], [])
  | item :: rest =>
    if item.kind = "file" then
      let tail := shallow_items rest
      (⟨item.path, item.name, item.size, item.sha, item.download_url⟩ :: tail.1,
       tail.2)
    else if item.kind = "dir" then
      let tail := shallow_items rest
      (tail.1, ⟨item.path, item.name⟩ :: tail.2)
    else
      shallow_items rest

/-- Refinement model of the spec's failure semantics for the tree fetch
(spec §4.1: "a transport failure on the *root* listing call is propagated as a
fatal error to the caller").  Written from the spec's words, to be compared
with `get_file_structure`, which is translated from the source. -/
def get_file_structure_specModel (listDir : String → Option (List RawEntry))
    (recursive : Bool) (max_depth : Nat) : Except String FileStructure :=
  match listDir "" with
  | none => Except.error "root listing failed"
  | some _ => Except.ok (get_file_structure listDir recursive max_depth)

end Mcp

namespace Extractor

/-- Whitespace as stripped by Python's `str.strip()` and matched by `\s`
(ASCII range; the claims only exercise ASCII input). -/
def py_whitespace (c : Char) : Bool :=
  c = ' ' || c = '\t' || c = '\n' || c = '\r' ||
  c = Char.ofNat 11 || c = Char.ofNat 12

/-- Python `str.strip()` on a character list. -/
def py_strip (cs : List Char) : List Char :=
  ((cs.dropWhile py_whitespace).reverse.dropWhile py_whitespace).reverse

/-- Python `str.lower()` (ASCII case folding, which is all the sources use). -/
def py_lower (s : String) : String :=
  String.mk (s.toList.map Char.toLower)

/-- Python `content.split("\n")`. -/
def split_lines : List Char → List (List Char)
  | [] => [[]]
  | c :: rest =>
      let r := split_lines rest
      if c = '\n' then [] :: r
      else (c :: r.headD []) :: r.tail

/-- Extension of a file name as computed by `os.path.splitext` on a plain
file name (no separators): the suffix from the last dot, except that a name
whose characters before that dot are all dots has no extension. -/
def splitext_ext (name : String) : String :=
  let cs := name.toList
  let rev_after := cs.reverse.takeWhile (fun c => c ≠ '.')
  if rev_after.length = cs.length then ""
  else
    let ext_len := rev_after.length + 1
    let base_len := cs.length - ext_len
    if (cs.take base_len).all (fun c => c = '.') then ""
    else String.mk (cs.drop base_len)

/-- The `MetadataExtractor.LANGUAGE_MAP` table (metadata_extractor.py). -/
def LANGUAGE_MAP : List (String × String) :=
  [(".py", "Python"), (".js", "JavaScript"), (".ts", "TypeScript"),
   (".jsx", "JavaScript"), (".tsx", "TypeScript"), (".cs", "C#"),
   (".java", "Java"), (".go", "Go"), (".rb", "Ruby"), (".rs", "Rust"),
   (".cpp", "C++"), (".c", "C"), (".h", "C/C++"), (".php", "PHP"),
   (".swift", "Swift"), (".kt", "Kotlin"), (".scala", "Scala"), (".r", "R"),
   (".sql", "SQL"), (".html", "HTML"), (".css", "CSS"), (".scss", "SCSS"),
   (".sass", "SASS"), (".less", "LESS"), (".json", "JSON"), (".xml", "XML"),
   (".yaml", "YAML"), (".yml", "YAML"), (".md", "Markdown"), (".txt", "Text"),
   (".sh", "Shell"), (".bash", "Bash"), (".ps1", "PowerShell"),
   (".dockerfile", "Docker"), (".tf", "Terraform")]

/-- A raw file entry as consumed by `extract_files_metadata`
(metadata_extractor.py): `file_info.get("path", "")`, `.get("name", "")`,
`.get("size", 0)`. -/
structure RawFile where
  path : String
  name : String
  size : Nat
deriving Repr, DecidableEq

/-- One element of the list produced by `extract_files_metadata`. -/
structure FileMeta where
  path : String
  name : String
  extension : String
  size : Nat
  language : Option String
deriving Repr, DecidableEq

/-- The language classification performed inside `extract_files_metadata`
(metadata_extractor.py, lines 140-149), as the pure function of the file
name it is: look the lower-cased extension up in `LANGUAGE_MAP`, then
special-case the exact names `dockerfile` and `makefile`/`gnumakefile`. -/
def classify_language (name : String) : Option String :=
  let lower := py_lower name
  let ext := splitext_ext lower
  let language := (LANGUAGE_MAP.find? (fun p => p.1 = ext)).map (fun p => p.2)
  if lower = "dockerfile" then some "Docker"
  else if lower = "makefile" ∨ lower = "gnumakefile" then some "Make"
  else language

/-- Embedding of `MetadataExtractor.extract_files_metadata`
(metadata_extractor.py): per file, extension of the lower-cased name and the
language classification (written inline in the source; `classify_language`
is that inline computation). -/
def extract_files_metadata (files : List RawFile) : List FileMeta :=
  files.map fun file_info =>
    { path := file_info.path
      name := file_info.name
      extension := splitext_ext (py_lower file_info.name)
      size := file_info.size
      language := classify_language file_info.name }

/-- A dependency record as built by the manifest sub-parsers
(metadata_extractor.py): `version` is kept as `Json` (`Json.null` models
Python `None`; the npm parser stores the raw JSON value found in the
manifest). -/
structure DepRecord where
  name : String
  version : Json
  type : String
  source_file : String
deriving Repr

/-- Python `dict.get(key, default)` on a JSON object. -/
def Json.getD (j : Json) (key : String) (dflt : Json) : Json :=
  match j with
  | Json.obj fields =>
      match fields.find? (fun p => p.1 = key) with
      | some p => p.2
      | none => dflt
  | _ => dflt

/-- Python `dict.items()` on a JSON object (the sub-parsers only call it on
objects). -/
def Json.items (j : Json) : List (String × Json) :=
  match j with
  | Json.obj fields => fields
  | _ => []

/-- Embedding of `MetadataExtractor._parse_npm_dependencies`
(metadata_extractor.py).  `parsed` is the result of `json.loads(content)`:
`none` models a `json.JSONDecodeError` (the `except` branch, which yields the
empty list), `some data` the parsed payload. -/
def parse_npm_dependencies (parsed : Option Json) (source_file : String) :
    List DepRecord :=
  match parsed with
  | none => []
  | some data =>
      (["dependencies", "devDependencies", "peerDependencies"].map
        fun dep_key =>
          (Json.items (Json.getD data dep_key (Json.obj []))).map fun nv =>
            { name := nv.1, version := nv.2, type := dep_key
              source_file := source_file }).flatten

/-- Characters of the requirement-name class `[a-zA-Z0-9_-]`. -/
def pip_name_char (c : Char) : Bool :=
  c.isAlpha || c.isDigit || c = '_' || c = '-'

/-- Characters of the comparator class `[<>=!~]`. -/
def pip_op_char (c : Char) : Bool :=
  c = '<' || c = '>' || c = '=' || c = '!' || c = '~'

/-- The version token read after taking `k` comparator characters:
`\s*([^\s#]{1,100})` starting right after them.  Used to model the regex
backtracking over the comparator group length. -/
def pip_version_at (after_name : List Char) (k : Nat) : List Char :=
  let after_sp := (after_name.drop k).dropWhile py_whitespace
  (after_sp.takeWhile fun c => ¬ py_whitespace c ∧ c ≠ '#').take 100

/-- The match of the requirement pattern
`^([a-zA-Z0-9][a-zA-Z0-9_-]{0,100})(?:\s*([<>=!~]{1,3})\s*([^\s#]{1,100}))?`
(metadata_extractor.py) against a stripped line: the name group is greedy and
bounded at 101 characters; the optional comparator/version group succeeds for
the longest comparator length (at most 3, backtracking to shorter ones) that
leaves a non-empty version token. -/
def match_pip_pattern (line : List Char) : Option (String × Option String) :=
  match line with
  | [] => none
  | c :: rest =>
    if c.isAlpha || c.isDigit then
      let name_tail := (rest.takeWhile pip_name_char).take 100
      let name := String.mk (c :: name_tail)
      let after_name := (rest.drop name_tail.length).dropWhile py_whitespace
      let op_run := after_name.takeWhile pip_op_char
      if op_run.isEmpty then some (name, none)
      else
        let kmax := min 3 op_run.length
        match (List.range kmax).map (fun i => kmax - i) |>.findSome?
            (fun k =>
              let v := pip_version_at after_name k
              if v.isEmpty then none else some v) with
        | some v => some (name, some (String.mk v))
        | none => some (name, none)
    else none

/-- The per-line step of `_parse_pip_dependencies` (metadata_extractor.py):
strip the line; skip it when empty, when it starts with `#`, or when it is
longer than 500 characters; otherwise match the requirement pattern
(`version` is `group(3)` when the comparator group matched, else `None`). -/
def pip_line (source_file : String) (raw_line : List Char) : Option DepRecord :=
  let line := py_strip raw_line
  match line with
  | [] => none
  | c :: rest =>
    if c = '#' then none
    else if 500 < (c :: rest).length then none
    else
      match match_pip_pattern (c :: rest) with
      | none => none
      | some (name, version) =>
          some { name := name
                 version := match version with
                   | none => Json.null
                   | some v => Json.str v
                 type := "pip"
                 source_file := source_file }

/-- Embedding of `MetadataExtractor._parse_pip_dependencies`
(metadata_extractor.py): split the content on newlines and collect the
records of the lines that parse. -/
def parse_pip_dependencies (content : String) (source_file : String) :
    List DepRecord :=
  (split_lines content.toList).filterMap (pip_line source_file)

end Extractor

namespace Formatter

/-- A technology-stack item as consumed by `_format_metadata`
(json_formatter.py). -/
structure TechItem where
  name : String
  category : String
  version : Option String
deriving Repr, DecidableEq

/-- The code-metrics dictionary produced by
`MetadataExtractor.calculate_code_metrics` and consumed by
`_format_code_metrics`. -/
structure CodeMetricsR where
  total_files : Nat
  total_size_bytes : Nat
  languages_breakdown : List (String × Nat)
  file_types : List (String × Nat)
deriving Repr, DecidableEq

/-- The `metadata` aggregate built by `ProcessingNodes.extract_metadata` and
consumed by `JsonFormatter._format_metadata`. -/
structure MetadataOut where
  files : List Extractor.FileMeta
  dependencies : List Extractor.DepRecord
  code_metrics : CodeMetricsR
  tech_stack : List TechItem

/-- The repository dictionary consumed by `_format_repository_enhanced`
(json_formatter.py): it reads `name`, `owner`, `description` and `stars`. -/
structure RepoIn where
  name : String
  owner : String
  description : Option String
  stars : Nat
deriving Repr, DecidableEq

/-- A service dictionary as produced by `MetadataExtractor.extract_services`
and consumed by `_extract_connections` / `_analyze_patterns`
(json_formatter.py): `name`, `dependencies` (dependency-name strings),
`type`, `technologies`. -/
structure Service where
  name : String
  dependencies : List String
  type : String
  technologies : List String
deriving Repr, DecidableEq

/-- The analysis dictionary consumed by `format` (json_formatter.py):
`summary`, `insights`, `recommendations` and the `services` list. -/
structure AnalysisIn where
  summary : String
  insights : List String
  recommendations : List String
  services : List Service

/-- A service-connection edge as appended by `_extract_connections`
(json_formatter.py); the source dict keys are `from`, `to`, `type`, `via`
(`from`/`type` are spelt `fromService`/`ctype` here because they are Lean
keywords or clash with field notation). -/
structure Connection where
  fromService : String
  toService : String
  ctype : String
  via : String
deriving Repr, DecidableEq

/-- Python's substring test `needle in hay`. -/
def str_in (needle hay : List Char) : Bool :=
  (List.range (hay.length + 1)).any fun i => needle.isPrefixOf (hay.drop i)

/-- The normalization performed inside `_extract_connections`
(json_formatter.py): `dep.replace(".", "").replace("-", "").replace("_",
"").lower()`, i.e. remove every `.`/`-`/`_` and lower-case. -/
def normalize_name (s : String) : List Char :=
  (s.toList.filter fun c => ¬ (c = '.' ∨ c = '-' ∨ c = '_')).map Char.toLower

/-- The key used by the duplicate-removal loop of `_extract_connections`:
`(conn["from"], conn["to"], conn.get("via", ""))`. -/
def conn_key (c : Connection) : String × String × String :=
  (c.fromService, c.toService, c.via)

/-- The duplicate-removal loop at the end of `_extract_connections`
(json_formatter.py): keep the first connection for each `(from, to, via)`
triple. -/
def dedup_connections (seen : List (String × String × String)) :
    List Connection → List Connection
  | [] => []
  | c :: rest =>
      if conn_key c ∈ seen then dedup_connections seen rest
      else c :: dedup_connections (conn_key c :: seen) rest

/-- First-occurrence deduplication, modelling iteration over a Python `set`
built from a list (set iteration order is unspecified; the claims proved
about it do not depend on the order chosen here). -/
def dedup_first (seen : List String) : List String → List String
  | [] => []
  | x :: xs =>
      if x ∈ seen then dedup_first seen xs
      else x :: dedup_first (x :: seen) xs

/-- Embedding of `JsonFormatter._extract_connections` (json_formatter.py):
for each service and each of its dependency strings, emit an edge to every
other service whose normalized name is a substring of the normalized
dependency string; then deduplicate by `(from, to, via)`. -/
def extract_connections (services : List Service) : List Connection :=
  let service_names := dedup_first [] (services.map fun s => s.name)
  let connections := services.flatMap fun service =>
    service.dependencies.flatMap fun dep =>
      service_names.filterMap fun other_service =>
        if service.name ≠ other_service then
          if str_in (normalize_name other_service) (normalize_name dep) then
            some { fromService := service.name, toService := other_service
                   ctype := "dependency", via := dep }
          else none
        else none
  dedup_connections [] connections

/-- Rendering of a service dict into the output payload (services are passed
through verbatim by `_format_repository_enhanced`). -/
def Service.toJson (s : Service) : Json :=
  Json.obj
    [("name", Json.str s.name),
     ("dependencies", Json.arr (s.dependencies.map Json.str)),
     ("type", Json.str s.type),
     ("technologies", Json.arr (s.technologies.map Json.str))]

/-- Rendering of a connection dict as appended by `_extract_connections`. -/
def Connection.toJson (c : Connection) : Json :=
  Json.obj
    [("from", Json.str c.fromService), ("to", Json.str c.toService),
     ("type", Json.str c.ctype), ("via", Json.str c.via)]

/-- Embedding of `JsonFormatter._analyze_patterns` (json_formatter.py). -/
def analyze_patterns (services : List Service) : Json :=
  if services.isEmpty then Json.obj []
  else
    let stypes := services.map fun s => s.type
    let type_counts := (dedup_first [] stypes).map fun t =>
      (t, (stypes.filter fun x => x = t).length)
    let techs := services.flatMap fun s => s.technologies
    let tech_count := (dedup_first [] techs).map fun t =>
      (t, (techs.filter fun x => x = t).length)
    Json.obj
      [("total_services", Json.num services.length),
       ("service_types",
        Json.obj (type_counts.map fun p => (p.1, Json.num p.2))),
       ("shared_technologies",
        Json.obj ((tech_count.filter fun p => 1 < p.2).map
          fun p => (p.1, Json.num p.2)))]

/-- Embedding of `JsonFormatter._format_repository_enhanced`
(json_formatter.py). -/
def format_repository_enhanced (repository : RepoIn) (analysis : AnalysisIn) :
    Json :=
  Json.obj
    [("name", Json.str repository.name),
     ("owner", Json.str repository.owner),
     ("description", Json.str (repository.description.getD "")),
     ("stars", Json.num repository.stars),
     ("url", Json.str
       ("https://github.com/" ++ repository.owner ++ "/" ++ repository.name)),
     ("overview", Json.str analysis.summary),
     ("services", Json.arr (analysis.services.map Service.toJson)),
     ("connections",
      Json.arr ((extract_connections analysis.services).map Connection.toJson)),
     ("patterns", analyze_patterns analysis.services)]

/-- Embedding of `JsonFormatter._format_files` (json_formatter.py):
truncates to `MAX_FILES_IN_OUTPUT = 500`. -/
def format_files (files : List Extractor.FileMeta) : Json :=
  Json.arr ((files.take 500).map fun f =>
    Json.obj
      [("path", Json.str f.path), ("name", Json.str f.name),
       ("extension", Json.str f.extension), ("size", Json.num f.size),
       ("language", match f.language with
         | none => Json.null
         | some l => Json.str l)])

/-- Embedding of `JsonFormatter._format_dependencies` (json_formatter.py). -/
def format_dependencies (dependencies : List Extractor.DepRecord) : Json :=
  Json.arr (dependencies.map fun d =>
    Json.obj
      [("name", Json.str d.name), ("version", d.version),
       ("type", Json.str d.type), ("sourceFile", Json.str d.source_file)])

/-- Embedding of `JsonFormatter._format_code_metrics` (json_formatter.py). -/
def format_code_metrics (metrics : CodeMetricsR) : Json :=
  Json.obj
    [("total_files", Json.num metrics.total_files),
     ("total_size_bytes", Json.num metrics.total_size_bytes),
     ("languages_breakdown",
      Json.obj (metrics.languages_breakdown.map fun p => (p.1, Json.num p.2))),
     ("file_types",
      Json.obj (metrics.file_types.map fun p => (p.1, Json.num p.2)))]

/-- Embedding of `JsonFormatter._format_metadata` (json_formatter.py): note
the emitted keys are `code_metrics` and `tech_stack` (snake case);
`tech_stack` is the set of tech-stack item names. -/
def format_metadata (metadata : MetadataOut) : Json :=
  let tech_stack := dedup_first [] (metadata.tech_stack.map fun t => t.name)
  Json.obj
    [("files", format_files metadata.files),
     ("dependencies", format_dependencies metadata.dependencies),
     ("code_metrics", format_code_metrics metadata.code_metrics),
     ("tech_stack", Json.arr (tech_stack.map Json.str))]

/-- Embedding of `JsonFormatter._format_analysis` (json_formatter.py). -/
def format_analysis (analysis : AnalysisIn) : Json :=
  Json.obj
    [("summary", Json.str analysis.summary),
     ("insights", Json.arr (analysis.insights.map Json.str)),
     ("recommendations", Json.arr (analysis.recommendations.map Json.str))]

/-- Embedding of `JsonFormatter.format` (json_formatter.py) with the default
`issues=None` (so no `issues` key).  `analyzed_at` stands for
`datetime.utcnow().isoformat()`.  The source serializes this object with
`json.dumps`; the embedding keeps the tree that the serialized string
denotes, which is what `validate` recovers with `json.loads`. -/
def format (analyzed_at : String) (repository : RepoIn)
    (metadata : MetadataOut) (analysis : AnalysisIn) : Json :=
  Json.obj
    [("analysis_metadata", Json.obj
      [("analyzed_at", Json.str analyzed_at),
       ("repository", Json.obj
         [("owner", Json.str repository.owner),
          ("name", Json.str repository.name)]),
       ("analyzer_version", Json.str "1.0.0")]),
     ("repository", format_repository_enhanced repository analysis),
     ("metadata", format_metadata metadata),
     ("analysis", format_analysis analysis)]

/-- Python `key in data` on a JSON object. -/
def Json.hasKey (j : Json) (key : String) : Bool :=
  match j with
  | Json.obj fields => fields.any fun p => p.1 = key
  | _ => false

/-- Embedding of `JsonFormatter.validate` (json_formatter.py) on the parsed
payload (`json.loads` of the argument; a `json.JSONDecodeError` would return
`False`, but `format` always emits valid JSON).  Checks the top-level keys,
then `name`/`owner` under `repository`, then `files`/`dependencies`/
`codeMetrics`/`techStack` under `metadata` (camel case), then
`summary`/`insights`/`recommendations` under `analysis`. -/
def validate (data : Json) : Bool :=
  if ["repository", "metadata", "analysis"].all (fun k => Json.hasKey data k)
  then
    let repo := Extractor.Json.getD data "repository" Json.null
    if Json.hasKey repo "name" && Json.hasKey repo "owner" then
      let metadata := Extractor.Json.getD data "metadata" Json.null
      if ["files", "dependencies", "codeMetrics", "techStack"].all
          (fun k => Json.hasKey metadata k) then
        let analysis := Extractor.Json.getD data "analysis" Json.null
        ["summary", "insights", "recommendations"].all
          (fun k => Json.hasKey analysis k)
      else false
    else false
  else false

end Formatter

namespace Analyzer

/-- The required positional parameters of `CodeAnalyzer.analyze`
(processors/code_analyzer.py, lines 23-30): besides `self`, the signature is
`analyze(repository, metadata, llm_client, issues, mcp_client)` and none of
them has a default. -/
def analyze_params : List String :=
  ["repository", "metadata", "llm_client", "issues", "mcp_client"]

/-- The positional arguments `ProcessingNodes.format_data` passes to
`self.code_analyzer.analyze` (graph/nodes.py, lines 170-174):
`state["repository"]`, `state["metadata"]`, `self.llm_client`. -/
def format_data_call_args : List String :=
  ["repository", "metadata", "llm_client"]

/-- Python call semantics for the `format_data` call with the default
`CodeAnalyzer`: a call supplying fewer positional arguments than the
function's required parameters raises `TypeError` before the body runs, so
the outcome of `self.code_analyzer.analyze(...)` inside `format_data`'s
`try` block is that exception. -/
def analyze_call_outcome : Except String Json :=
  if format_data_call_args.length < analyze_params.length then
    Except.error
      "analyze() missing 2 required positional arguments: issues and mcp_client"
  else Except.ok (Json.obj [])

end Analyzer

/-- C1: for every run of the four-node workflow from the initial state, the
final state satisfies exactly one of: `is_complete = true` with an empty
error list, or the run stopped after the first stage that recorded a failure,
with exactly that one error recorded, `should_continue = false` and
`is_complete = false`. -/
theorem pipeline_terminal_state (o : Graph.StageOutcomes)
    (owner name : String) :
    let final := Graph.run_workflow o (Graph.create_initial_state owner name)
    ((final.is_complete = true ∧ final.errors = []) ∨
     (final.is_complete = false ∧ final.errors ≠ [] ∧
      final.errors.length = 1 ∧ final.should_continue = false)) ∧
    ¬ ((final.is_complete = true ∧ final.errors = []) ∧
       (final.is_complete = false ∧ final.errors ≠ [] ∧
        final.errors.length = 1 ∧ final.should_continue = false)) := by
  obtain ⟨o1, o2, o3, o4⟩ := o
  cases o1 <;> cases o2 <;> cases o3 <;> cases o4 <;>
    simp [Graph.run_workflow, Graph.analyze_repository, Graph.extract_metadata,
      Graph.format_data, Graph.generate_json, Graph.should_continue_route,
      Graph.create_initial_state]

/-- C2: for every input state and every exception `e` raised inside the body
of any of the four stage functions, the stage catches it, appends the
human-readable message to `errors`, sets `should_continue := false`, and
returns the state (the stage embeddings are total functions: no exception
propagates). -/
theorem stage_error_policy :
    (∀ (state : Graph.PState) (e : String),
      Graph.analyze_repository (Except.error e) state =
        { state with
          current_stage := "repository_analysis"
          errors := state.errors ++ ["Repository analysis failed: " ++ e]
          should_continue := false }) ∧
    (∀ (state : Graph.PState) (e : String),
      Graph.extract_metadata (Except.error e) state =
        { state with
          current_stage := "metadata_extraction"
          errors := state.errors ++ ["Metadata extraction failed: " ++ e]
          should_continue := false }) ∧
    (∀ (state : Graph.PState) (e : String),
      Graph.format_data (Except.error e) state =
        { state with
          current_stage := "data_formatting"
          errors := state.errors ++ ["Data formatting failed: " ++ e]
          should_continue := false }) ∧
    (∀ (state : Graph.PState) (e : String),
      Graph.generate_json (Except.error e) state =
        { state with
          current_stage := "json_generation"
          errors := state.errors ++ ["JSON generation failed: " ++ e]
          should_continue := false }) :=
  ⟨fun _ _ => rfl, fun _ _ => rfl, fun _ _ => rfl, fun _ _ => rfl⟩

/-- C3: with the default `CodeAnalyzer`, the call in `format_data` passes 3
positional arguments to `analyze`, which requires 5, so the stage always
takes its exception branch: it appends a "Data formatting failed" message and
clears `should_continue`; consequently, whatever the other stages do, no run
reaches the `json_generation` stage or `is_complete = true`. -/
theorem default_format_data_always_fails :
    (∀ state : Graph.PState,
      Graph.format_data Analyzer.analyze_call_outcome state =
        { state with
          current_stage := "data_formatting"
          errors := state.errors ++
            ["Data formatting failed: analyze() missing 2 required positional arguments: issues and mcp_client"]
          should_continue := false }) ∧
    (∀ (o1 : Except String (Json × Json)) (o2 : Except String Json)
       (o4 : Except String String) (owner name : String),
      let final := Graph.run_workflow ⟨o1, o2, Analyzer.analyze_call_outcome, o4⟩
        (Graph.create_initial_state owner name)
      final.is_complete = false ∧ final.current_stage ≠ "json_generation") := by
  constructor
  · intro state
    rfl
  · intro o1 o2 o4 owner name
    cases o1 <;> cases o2 <;>
      simp [Graph.run_workflow, Graph.analyze_repository,
        Graph.extract_metadata, Graph.format_data, Graph.generate_json,
        Graph.should_continue_route, Graph.create_initial_state,
        Analyzer.analyze_call_outcome, Analyzer.analyze_params,
        Analyzer.format_data_call_args]

/-- Helper for the depth bound: at `current_depth ≥ max_depth` the traversal
records the listed items themselves and never consults the listing function
again (no directory is expanded). -/
theorem fetch_items_at_max (listDir : String → Option (List Mcp.RawEntry))
    (recursive : Bool) (max_depth current_depth : Nat)
    (hd : max_depth ≤ current_depth) (items : List Mcp.RawEntry) :
    Mcp.fetch_items listDir recursive max_depth current_depth items =
      Mcp.shallow_items items := by
  induction items with
  | nil => simp [Mcp.fetch_items, Mcp.shallow_items]
  | cons item rest ih =>
      rw [Mcp.fetch_items, Mcp.shallow_items]
      have hnot : ¬ (recursive = true ∧ current_depth < max_depth) := by
        rintro ⟨-, h2⟩; omega
      by_cases hf : item.kind = "file"
      · simp [hf, ih]
      · by_cases hdir : item.kind = "dir"
        · simp [hf, hdir, hnot, ih]
        · simp [hf, hdir, ih]

/-- C5: with maximum depth `d`, no directory reached at depth `d` or greater
is ever expanded — a traversal step at `current_depth ≥ max_depth` returns
exactly the immediate listing (directories recorded, children never listed);
in particular `get_file_structure` with `max_depth = 0` returns exactly the
root-level entries. -/
theorem depth_bound :
    (∀ (listDir : String → Option (List Mcp.RawEntry)) (recursive : Bool)
       (max_depth current_depth : Nat) (items : List Mcp.RawEntry),
      max_depth ≤ current_depth →
      Mcp.fetch_items listDir recursive max_depth current_depth items =
        Mcp.shallow_items items) ∧
    (∀ (listDir : String → Option (List Mcp.RawEntry)) (recursive : Bool)
       (items : List Mcp.RawEntry),
      listDir "" = some items →
      Mcp.get_file_structure listDir recursive 0 =
        { files := (Mcp.shallow_items items).1
          directories := (Mcp.shallow_items items).2
          total_files := (Mcp.shallow_items items).1.length
          total_directories := (Mcp.shallow_items items).2.length }) := by
  constructor
  · exact fun l r m c i h => fetch_items_at_max l r m c h i
  · intro listDir recursive items hroot
    simp [Mcp.get_file_structure, Mcp.fetch_contents, hroot,
      fetch_items_at_max listDir recursive 0 0 (le_refl 0) items]

/-- Witness for `depth_bound` at concrete inputs: a root listing with one
file and one directory, fetched with `max_depth = 0`, yields exactly those
two root entries. -/
theorem depth_bound_witness :
    Mcp.get_file_structure
      (fun p => if p = "" then
        some [⟨"file", "README.md", "README.md", 7, none, none⟩,
              ⟨"dir", "src", "src", 0, none, none⟩]
        else some [⟨"file", "src/deep.py", "deep.py", 1, none, none⟩])
      true 0 =
      { files := [⟨"README.md", "README.md", 7, none, none⟩]
        directories := [⟨"src", "src"⟩]
        total_files := 1
        total_directories := 1 } ∧
    Mcp.fetch_items (fun _ => some [⟨"file", "a/x.py", "x.py", 1, none, none⟩])
      true 3 3 [⟨"dir", "a", "a", 0, none, none⟩] =
      ([], [⟨"a", "a"⟩]) := by
  constructor
  · rw [depth_bound.2 _ true _ (by rfl)]
    rfl
  · rw [depth_bound.1 _ true 3 3 _ (le_refl 3)]
    rfl

/-- C4 counterexample: a transport failure on the root listing is NOT
propagated as a fatal error — `_fetch_contents` returns silently on any
non-success status, so `get_file_structure` returns the ordinary empty
structure, indistinguishable from an empty repository, while the spec's
failure semantics (modelled by `get_file_structure_specModel`) demand an
error. -/
theorem root_failure_not_fatal :
    Mcp.get_file_structure (fun _ => none) true 3 =
      { files := [], directories := [], total_files := 0,
        total_directories := 0 } ∧
    Mcp.get_file_structure (fun _ => none) true 3 =
      Mcp.get_file_structure (fun p => if p = "" then some [] else none)
        true 3 ∧
    Mcp.get_file_structure_specModel (fun _ => none) true 3 =
      Except.error "root listing failed" := by
  refine ⟨?_, ?_, rfl⟩
  · simp [Mcp.get_file_structure, Mcp.fetch_contents]
  · simp [Mcp.get_file_structure, Mcp.fetch_contents, Mcp.fetch_items]

/-- C6: the output of `format` carries the metadata keys `code_metrics` and
`tech_stack`, while `validate` requires `codeMetrics` and `techStack`, so
validating the formatted output always returns `False`. -/
theorem validate_rejects_format_output :
    ∀ (analyzed_at : String) (repository : Formatter.RepoIn)
      (metadata : Formatter.MetadataOut) (analysis : Formatter.AnalysisIn),
      Formatter.validate
        (Formatter.format analyzed_at repository metadata analysis) = false :=
  fun _ _ _ _ => rfl

/-- C7: the npm manifest example yields exactly the two expected records in
order, and an unparseable payload (a `json.JSONDecodeError`, modelled by
`none`) yields the empty list instead of an error. -/
theorem npm_dependencies_behavior :
    Extractor.parse_npm_dependencies
      (some (Json.obj
        [("dependencies", Json.obj [("express", Json.str "^4.18.0")]),
         ("devDependencies", Json.obj [("jest", Json.str "^29.0.0")])]))
      "package.json" =
      [{ name := "express", version := Json.str "^4.18.0",
         type := "dependencies", source_file := "package.json" },
       { name := "jest", version := Json.str "^29.0.0",
         type := "devDependencies", source_file := "package.json" }] ∧
    (∀ source_file : String,
      Extractor.parse_npm_dependencies none source_file = []) :=
  ⟨rfl, fun _ => rfl⟩

/-- C8: the pip requirement parser skips every line that strips to empty,
starts (after stripping) with the comment marker `#`, or exceeds 500
characters after stripping (such a line contributes no record); on the
spec's example input it yields exactly the two records `langchain` and
`aiohttp`. -/
theorem pip_dependencies_behavior :
    (∀ (source_file : String) (raw_line : List Char),
      Extractor.py_strip raw_line = [] ∨
      (Extractor.py_strip raw_line).head? = some '#' ∨
      500 < (Extractor.py_strip raw_line).length →
      Extractor.pip_line source_file raw_line = none) ∧
    Extractor.parse_pip_dependencies
      "langchain>=0.3.0\n# comment\naiohttp==3.9.0\n" "requirements.txt" =
      [{ name := "langchain", version := Json.str "0.3.0", type := "pip",
         source_file := "requirements.txt" },
       { name := "aiohttp", version := Json.str "3.9.0", type := "pip",
         source_file := "requirements.txt" }] := by
  constructor
  · intro source_file raw_line h
    unfold Extractor.pip_line
    rcases hl : Extractor.py_strip raw_line with _ | ⟨c, rest⟩
    · simp
    · rw [hl] at h
      rcases h with h | h | h
      · exact absurd h (by simp)
      · simp only [List.head?, Option.some.injEq] at h
        simp [h]
      · by_cases hc : c = '#'
        · simp [hc]
        · simp only [List.length_cons] at h
          simp [hc, h]
  · rfl

set_option maxRecDepth 8000 in
/-- Witness for `pip_dependencies_behavior`: the skip clause applied to a
comment line, a blank line and an over-long line. -/
theorem pip_dependencies_behavior_witness :
    Extractor.pip_line "requirements.txt" "# comment".toList = none ∧
    Extractor.pip_line "requirements.txt" "   ".toList = none ∧
    Extractor.pip_line "requirements.txt" (List.replicate 501 'a') = none :=
  ⟨pip_dependencies_behavior.1 "requirements.txt" _ (Or.inr (Or.inl (by rfl))),
   pip_dependencies_behavior.1 "requirements.txt" _ (Or.inl (by rfl)),
   pip_dependencies_behavior.1 "requirements.txt" _ (Or.inr (Or.inr (by decide)))⟩

/-- C9: the language tag assigned by `extract_files_metadata` is a pure
function of the file's name alone (`classify_language`); a name that
lower-cases to `dockerfile` maps to Docker, `makefile`/`gnumakefile` map to
Make, and a name that is none of those and whose lower-cased extension is
outside `LANGUAGE_MAP` gets no language tag (`none`), not an error. -/
theorem file_classifier_props :
    (∀ files : List Extractor.RawFile,
      (Extractor.extract_files_metadata files).map (fun m => m.language) =
        files.map (fun f => Extractor.classify_language f.name)) ∧
    (∀ name : String, Extractor.py_lower name = "dockerfile" →
      Extractor.classify_language name = some "Docker") ∧
    (∀ name : String,
      Extractor.py_lower name = "makefile" ∨
        Extractor.py_lower name = "gnumakefile" →
      Extractor.classify_language name = some "Make") ∧
    (∀ name : String,
      Extractor.LANGUAGE_MAP.find?
        (fun p => p.1 = Extractor.splitext_ext (Extractor.py_lower name)) =
          none →
      Extractor.py_lower name ≠ "dockerfile" →
      Extractor.py_lower name ≠ "makefile" →
      Extractor.py_lower name ≠ "gnumakefile" →
      Extractor.classify_language name = none) := by
  refine ⟨?_, ?_, ?_, ?_⟩
  · intro files
    simp [Extractor.extract_files_metadata]
  · intro name h
    simp [Extractor.classify_language, h]
  · intro name h
    rcases h with h | h <;> simp [Extractor.classify_language, h]
  · intro name hfind h1 h2 h3
    simp [Extractor.classify_language, hfind, h1, h2, h3]

/-- Witness for `file_classifier_props` at concrete file names. -/
theorem file_classifier_props_witness :
    Extractor.classify_language "Dockerfile" = some "Docker" ∧
    Extractor.classify_language "GNUmakefile" = some "Make" ∧
    Extractor.classify_language "photo.zzz" = none :=
  ⟨file_classifier_props.2.1 "Dockerfile" rfl,
   file_classifier_props.2.2.1 "GNUmakefile" (Or.inr rfl),
   file_classifier_props.2.2.2 "photo.zzz" rfl
     (by decide) (by decide) (by decide)⟩

/-- Helper: the duplicate-removal loop only keeps elements of its input. -/
theorem dedup_connections_subset (seen : List (String × String × String))
    (l : List Formatter.Connection) (c : Formatter.Connection)
    (hc : c ∈ Formatter.dedup_connections seen l) : c ∈ l := by
  induction l generalizing seen with
  | nil => rw [Formatter.dedup_connections] at hc; exact absurd hc (List.not_mem_nil c)
  | cons d rest ih =>
      rw [Formatter.dedup_connections] at hc
      split at hc
      · exact List.mem_cons_of_mem d (ih _ hc)
      · rcases List.mem_cons.1 hc with h | h
        · exact h ▸ List.mem_cons_self d rest
        · exact List.mem_cons_of_mem d (ih _ h)

/-- Helper: after the duplicate-removal loop, the `(from, to, via)` keys are
pairwise distinct and disjoint from the already-seen set. -/
theorem dedup_connections_nodup (seen : List (String × String × String))
    (l : List Formatter.Connection) :
    ((Formatter.dedup_connections seen l).map Formatter.conn_key).Nodup ∧
    ∀ k ∈ (Formatter.dedup_connections seen l).map Formatter.conn_key,
      k ∉ seen := by
  induction l generalizing seen with
  | nil => simp [Formatter.dedup_connections]
  | cons d rest ih =>
      rw [Formatter.dedup_connections]
      split
      · exact ih seen
      · rename_i hnot
        obtain ⟨hn, hd⟩ := ih (Formatter.conn_key d :: seen)
        refine ⟨?_, ?_⟩
        · simp only [List.map_cons, List.nodup_cons]
          refine ⟨fun hmem => ?_, hn⟩
          exact hd _ hmem (List.mem_cons_self _ _)
        · intro k hk hkseen
          simp only [List.map_cons, List.mem_cons] at hk
          rcases hk with rfl | hk
          · exact hnot hkseen
          · exact hd _ hk (List.mem_cons_of_mem _ hkseen)

/-- C10: service-connection inference never emits a self-edge, the emitted
edges are pairwise distinct in their `(from, to, via)` triple, and the
two-service example `A: deps=[b-client]`, `B: deps=[]` yields exactly one
edge from A to B via `b-client`. -/
theorem service_connections_props :
    (∀ (services : List Formatter.Service) (c : Formatter.Connection),
      c ∈ Formatter.extract_connections services →
      c.fromService ≠ c.toService) ∧
    (∀ services : List Formatter.Service,
      ((Formatter.extract_connections services).map
        Formatter.conn_key).Nodup) ∧
    Formatter.extract_connections
      [{ name := "A", dependencies := ["b-client"], type := "service",
         technologies := [] },
       { name := "B", dependencies := [], type := "service",
         technologies := [] }] =
      [{ fromService := "A", toService := "B", ctype := "dependency",
         via := "b-client" }] := by
  refine ⟨?_, ?_, by rfl⟩
  · intro services c hc
    rw [Formatter.extract_connections] at hc
    have hc' := dedup_connections_subset _ _ _ hc
    rw [List.mem_flatMap] at hc'
    obtain ⟨service, _, hc2⟩ := hc'
    rw [List.mem_flatMap] at hc2
    obtain ⟨dep, _, hc3⟩ := hc2
    rw [List.mem_filterMap] at hc3
    obtain ⟨other, _, heq⟩ := hc3
    by_cases hne : service.name = other
    · simp [hne] at heq
    · simp only [hne, ne_eq, not_false_iff, if_true] at heq
      split at heq
      · cases heq
        simpa using hne
      · cases heq
  · intro services
    rw [Formatter.extract_connections]
    exact (dedup_connections_nodup [] _).1

/-- Witness for `service_connections_props`: the no-self-edge clause applied
to the single edge produced by the two-service example. -/
theorem service_connections_props_witness :
    ({ fromService := "A", toService := "B", ctype := "dependency",
       via := "b-client" } : Formatter.Connection) ∈
      Formatter.extract_connections
        [{ name := "A", dependencies := ["b-client"], type := "service",
           technologies := [] },
         { name := "B", dependencies := [], type := "service",
           technologies := [] }] ∧
    ({ fromService := "A", toService := "B", ctype := "dependency",
       via := "b-client" } : Formatter.Connection).fromService ≠
      ({ fromService := "A", toService := "B", ctype := "dependency",
         via := "b-client" } : Formatter.Connection).toService :=
  ⟨by decide,
   service_connections_props.1
     [{ name := "A", dependencies := ["b-client"], type := "service",
        technologies := [] },
      { name := "B", dependencies := [], type := "service",
        technologies := [] }]
     { fromService := "A", toService := "B", ctype := "dependency",
       via := "b-client" }
     (by decide)⟩

/-- Helper: a transport failure on the listing of a path `p` is local to that
path — the whole traversal is identical to one in which `p` lists as an empty
directory.  Proved for every traversal position by induction on the remaining
depth budget and on the item list. -/
theorem fetch_items_failure_local
    (listDir : String → Option (List Mcp.RawEntry)) (p : String)
    (hp : listDir p = none) (recursive : Bool) (max_depth : Nat)
    (current_depth : Nat) (items : List Mcp.RawEntry) :
    Mcp.fetch_items listDir recursive max_depth current_depth items =
      Mcp.fetch_items (fun q => if q = p then some [] else listDir q)
        recursive max_depth current_depth items := by
  have main : ∀ (k current_depth : Nat), max_depth - current_depth ≤ k →
      ∀ items : List Mcp.RawEntry,
      Mcp.fetch_items listDir recursive max_depth current_depth items =
        Mcp.fetch_items (fun q => if q = p then some [] else listDir q)
          recursive max_depth current_depth items := by
    intro k
    induction k with
    | zero =>
        intro cd hcd items
        rw [fetch_items_at_max _ _ _ _ (by omega),
          fetch_items_at_max _ _ _ _ (by omega)]
    | succ k ih =>
        intro cd hcd items
        induction items with
        | nil => rw [Mcp.fetch_items, Mcp.fetch_items]
        | cons item rest ihr =>
            rw [Mcp.fetch_items, Mcp.fetch_items]
            by_cases hf : item.kind = "file"
            · simp [hf, ihr]
            · by_cases hd : item.kind = "dir"
              · by_cases hg : recursive = true ∧ cd < max_depth
                · obtain ⟨hrec, hlt⟩ := hg
                  subst hrec
                  by_cases hpp : item.path = p
                  · subst hpp
                    simp [hf, hd, hlt, hp, ihr, Mcp.fetch_items]
                  · cases hl : listDir item.path with
                    | none => simp [hf, hd, hlt, hpp, hl, ihr]
                    | some contents =>
                        simp [hf, hd, hlt, hpp, hl, ihr,
                          ih (cd + 1) (by omega) contents]
                · simp [hf, hd, hg, ihr]
              · simp [hf, hd, ihr]
  exact main (max_depth - current_depth) current_depth (le_refl _) items

/-- C4 amended: a transport failure (non-success status) on the listing call
for any path is absorbed.  When the root listing fails, `get_file_structure`
returns the empty structure to its caller (no fatal error); and a listing
failure on any non-root path behaves exactly as if that directory were empty:
the directory's own record and every entry outside its subtree are unchanged,
only the failed directory's contents are omitted. -/
theorem listing_failure_absorbed :
    (∀ (listDir : String → Option (List Mcp.RawEntry)) (recursive : Bool)
       (max_depth : Nat),
      listDir "" = none →
      Mcp.get_file_structure listDir recursive max_depth =
        { files := [], directories := [], total_files := 0,
          total_directories := 0 }) ∧
    (∀ (listDir : String → Option (List Mcp.RawEntry)) (p : String)
       (recursive : Bool) (max_depth : Nat),
      listDir p = none → p ≠ "" →
      Mcp.get_file_structure listDir recursive max_depth =
        Mcp.get_file_structure (fun q => if q = p then some [] else listDir q)
          recursive max_depth) := by
  constructor
  · intro listDir recursive max_depth hroot
    simp [Mcp.get_file_structure, Mcp.fetch_contents, hroot]
  · intro listDir p recursive max_depth hp hproot
    have hroot_eq :
        (if ("" : String) = p then some ([] : List Mcp.RawEntry)
          else listDir "") = listDir "" :=
      if_neg (fun h => hproot h.symm)
    simp only [Mcp.get_file_structure, Mcp.fetch_contents, hroot_eq]
    cases hl : listDir "" with
    | none => rfl
    | some contents =>
        simp [fetch_items_failure_local listDir p hp recursive max_depth 0
          contents]

/-- Witness for `listing_failure_absorbed`: the root clause applied to the
everywhere-failing listing; the non-root clause applied to a listing whose
`src` subdirectory fails — the traversal equals the one where `src` lists as
empty, and concretely it still records the `src` directory itself alongside
the root file. -/
theorem listing_failure_absorbed_witness :
    Mcp.get_file_structure (fun _ => none) true 3 =
      { files := [], directories := [], total_files := 0,
        total_directories := 0 } ∧
    Mcp.get_file_structure
      (fun q => if q = "" then
        some [⟨"file", "README.md", "README.md", 7, none, none⟩,
              ⟨"dir", "src", "src", 0, none, none⟩]
        else none) true 3 =
      Mcp.get_file_structure
        (fun q => if q = "src" then some []
          else if q = "" then
            some [⟨"file", "README.md", "README.md", 7, none, none⟩,
                  ⟨"dir", "src", "src", 0, none, none⟩]
          else none) true 3 ∧
    Mcp.get_file_structure
      (fun q => if q = "" then
        some [⟨"file", "README.md", "README.md", 7, none, none⟩,
              ⟨"dir", "src", "src", 0, none, none⟩]
        else none) true 3 =
      { files := [⟨"README.md", "README.md", 7, none, none⟩]
        directories := [⟨"src", "src"⟩]
        total_files := 1
        total_directories := 1 } := by
  refine ⟨listing_failure_absorbed.1 (fun _ => none) true 3 rfl, ?_, ?_⟩
  · exact listing_failure_absorbed.2
      (fun q => if q = "" then
        some [⟨"file", "README.md", "README.md", 7, none, none⟩,
              ⟨"dir", "src", "src", 0, none, none⟩]
        else none) "src" true 3 rfl (by decide)
  · simp [Mcp.get_file_structure, Mcp.fetch_contents, Mcp.fetch_items]
